import Mathlib

/-!
Verification of the Streaming Interaction Controller in
`src/frontend/components/ChatPanel.tsx` (the `handleSend` and `fetchHistory`
functions) against its natural-language specification.

The embedding models JavaScript strings as Lean `String`s (a wrapper around
`List Char`; the inputs of interest are ASCII, so the UTF-16 code-unit view of
JS strings coincides with the code-point view).  The JS string primitives used
by the source (`split('\n')`, `startsWith`, `slice(6)`, `trim()`) are embedded
as structurally recursive functions on the underlying character list so that
all definitions evaluate inside the kernel.

The external `JSON.parse` collaborator is not part of the repository; the
decoder is therefore parameterised over an arbitrary fallible parse function
`parse : String → Option SRecord` (a `none` result models `JSON.parse`
throwing, which the source catches and ignores).  A concrete instance `jparse`
records the behaviour of `JSON.parse` on the specific payload strings used in
the concrete counterexamples and witnesses below.
-/

/-- Split a character list at `'\n'`, mirroring JS `String.prototype.split('\n')`:
`"a\nb\n".split('\n') = ["a","b",""]` and `"".split('\n') = [""]`. -/
def jsSplitNl : List Char → List (List Char)
  | [] => [[]]
  | c :: rest =>
    if c = '\n' then [] :: jsSplitNl rest
    else
      match jsSplitNl rest with
      | [] => [[c]]
      | l :: ls => (c :: l) :: ls

/-- The lines of a chunk: `chunk.split('\n')` from the source (line 83). -/
def jsLines (s : String) : List String := (jsSplitNl s.data).map String.mk

/-- Whitespace characters removed by JS `trim()` (the ASCII ones; the inputs
here contain no exotic Unicode whitespace). -/
def isJsWS (c : Char) : Bool := c = ' ' || c = '\t' || c = '\n' || c = '\r'

/-- Trim whitespace from both ends of a character list. -/
def trimChars (cs : List Char) : List Char :=
  ((cs.dropWhile isJsWS).reverse.dropWhile isJsWS).reverse

/-- JS `String.prototype.trim()`. -/
def jsTrim (s : String) : String := String.mk (trimChars s.data)

/-- The test `line.startsWith('data: ')` from the source (line 86). -/
def isDataLine (l : String) : Bool := ("data: ".data).isPrefixOf l.data

/-- JS `line.slice(6)` (drop the six characters of the `data: ` marker),
from the source (line 87). -/
def jsSlice6 (l : String) : String := String.mk (l.data.drop 6)

/-- A successfully parsed structured record, as the source reads it:
`parsed.type` (here `rtype`, since `type` is reserved) and `parsed.content`.
`content` is `Option String` because the field may be absent (`undefined`). -/
structure SRecord where
  rtype : String
  content : Option String
deriving DecidableEq, Repr

/-- JS coercion performed by `assistantContent += parsed.content` (source line
93): when `parsed.content` is `undefined`, the `+=` string concatenation
coerces it to the literal string `undefined`. -/
def jsUndef : Option String → String
  | some s => s
  | none => "undefined"

/-- The per-turn mutable loop state of `handleSend`'s decode loop:
`assistantContent` (source line 75) and `needsSync` (source line 76). -/
structure TurnAcc where
  assistantContent : String
  needsSync : Bool
deriving DecidableEq, Repr

/-- The inner `for (const line of lines)` loop of the source (lines 85-102),
processing the lines of one chunk against the running `TurnAcc`.
A line carrying the `[DONE]` sentinel executes `break`: the remaining lines of
this chunk are not processed (but the outer chunk loop continues). -/
def processLines (parse : String → Option SRecord) : List String → TurnAcc → TurnAcc
  | [], acc => acc
  | line :: rest, acc =>
    if isDataLine line then
      let data := jsTrim (jsSlice6 line)
      if data == "[DONE]" then acc
      else
        match parse data with
        | some parsed =>
          if parsed.rtype == "text" then
            processLines parse rest
              ⟨acc.assistantContent ++ jsUndef parsed.content, acc.needsSync⟩
          else if parsed.rtype == "tool_call" then
            processLines parse rest ⟨acc.assistantContent, true⟩
          else
            processLines parse rest acc
        | none => processLines parse rest acc
    else
      processLines parse rest acc

/-- Processing of one delivered chunk (source lines 82-102): split the chunk
text on newlines and run the line loop.  Note the source keeps NO carry-over
buffer between chunks: each chunk is split and processed in isolation. -/
def processChunk (parse : String → Option SRecord) (acc : TurnAcc) (chunk : String) : TurnAcc :=
  processLines parse (jsLines chunk) acc

/-- The outer `while (true)` read loop (source lines 78-103) starting from a
given loop state: fold the chunk processor over the delivered chunks. -/
def runChunksFrom (parse : String → Option SRecord) (acc : TurnAcc) (chunks : List String) : TurnAcc :=
  chunks.foldl (processChunk parse) acc

/-- The read loop from the initial state `assistantContent = ''`,
`needsSync = false` (source lines 75-76). -/
def runChunks (parse : String → Option SRecord) (chunks : List String) : TurnAcc :=
  runChunksFrom parse ⟨"", false⟩ chunks

/-- Decoded stream events, as classified by the source: `type: 'text'`
records become text deltas carrying their (coerced) content payload, and
`type: 'tool_call'` records become tool invocations. -/
inductive StreamEvent where
  | textDelta (payload : String)
  | toolInvocation
deriving DecidableEq, Repr

/-- The ordered sequence of StreamEvents the line loop extracts from the lines
of one chunk (same traversal as `processLines`, collecting events instead of
updating state; `[DONE]` stops the collection for the chunk). -/
def lineEvents (parse : String → Option SRecord) : List String → List StreamEvent
  | [] => []
  | line :: rest =>
    if isDataLine line then
      let data := jsTrim (jsSlice6 line)
      if data == "[DONE]" then []
      else
        match parse data with
        | some parsed =>
          if parsed.rtype == "text" then
            .textDelta (jsUndef parsed.content) :: lineEvents parse rest
          else if parsed.rtype == "tool_call" then
            .toolInvocation :: lineEvents parse rest
          else
            lineEvents parse rest
        | none => lineEvents parse rest
    else
      lineEvents parse rest

/-- The ordered sequence of StreamEvents decoded from a whole delivered chunk
sequence. -/
def chunksEvents (parse : String → Option SRecord) (chunks : List String) : List StreamEvent :=
  (chunks.map (fun c => lineEvents parse (jsLines c))).flatten

/-- The text-delta payloads `d1..dn` of an event sequence, in arrival order. -/
def textPayloads : List StreamEvent → List String
  | [] => []
  | .textDelta d :: rest => d :: textPayloads rest
  | .toolInvocation :: rest => textPayloads rest

/-- Concatenation of a list of strings, in order. -/
def joinStr : List String → String
  | [] => ""
  | s :: rest => s ++ joinStr rest

/-- Whether an event sequence contains a tool invocation. -/
def hasTool : List StreamEvent → Bool
  | [] => false
  | .textDelta _ :: rest => hasTool rest
  | .toolInvocation :: rest => true || hasTool rest

/-- The number of tool-invocation events in an event sequence. -/
def countTool : List StreamEvent → Nat
  | [] => 0
  | .textDelta _ :: rest => countTool rest
  | .toolInvocation :: rest => countTool rest + 1

/-- Message roles used by the panel. -/
inductive Role where
  | user
  | assistant
deriving DecidableEq, Repr

/-- The `ChatMessage` record of the source.  Timestamps are modelled as the
abstract clock reading (a `Nat`) at which the message was created. -/
structure ChatMessage where
  id : String
  role : Role
  content : String
  timestamp : Nat
deriving DecidableEq, Repr

/-- The React state of `ChatPanel` relevant to the controller:
`messages`, `isTyping`, `currentResponse`, `inputValue`
(source lines 15-18). -/
structure SessionState where
  messages : List ChatMessage
  isTyping : Bool
  currentResponse : String
  inputValue : String
deriving DecidableEq, Repr

/-- Behaviour of the transport for one turn, at the controller's boundary:
  * `fetchError`: the `fetch` call itself rejects (network error);
  * `noBody status`: a response arrives (with the given HTTP status) but its
    `body` is null, so the source throws `'No response body'`;
  * `body status chunks readErr`: a response with a readable body arrives with
    the given HTTP status; the reader delivers `chunks` and then either raises
    a read error (`readErr = true`) or reports completion (`readErr = false`).
The source never inspects the HTTP status (there is no `response.ok` check),
which the model makes visible by carrying the status unused. -/
inductive TransportResult where
  | fetchError
  | noBody (status : Nat)
  | body (status : Nat) (chunks : List String) (readErr : Bool)

/-- Outcome of a `handleSend` call: the resulting React state, how many times
the outward sync notification `onTaskMutation` was invoked, and whether a
network request was opened. -/
structure SendResult where
  state : SessionState
  syncCount : Nat
  requestOpened : Bool
deriving DecidableEq, Repr

/-- The fixed apology content of the synthetic error message
(source line 123). -/
def apologyText : String :=
  "I'm sorry, I encountered an error. Please check your connection and try again."

/-- The `handleSend` function of the source (lines 44-129).
`now1` is the `Date.now()` reading when the user message is created (line 50);
`now2` is the clock reading when the turn ends (the assistant message id is
`(Date.now() + 1).toString()`, line 106, and the error/assistant timestamps
are taken then).  Control flow mirrored from the source:
  * guard: empty-after-trim input or a turn already in flight is a no-op;
  * otherwise the user message is appended, `isTyping` set, `currentResponse`
    and `inputValue` cleared, and the request opened;
  * `fetchError` and `noBody` jump to the `catch` block, which appends the
    synthetic error message (fixed id `error`) — note the `catch` block does
    not clear `currentResponse` and does not consult `needsSync`;
  * a body is drained chunk by chunk through the decode loop; each `text`
    event sets `currentResponse` to the accumulated text, so after the loop
    `currentResponse` equals the accumulated `assistantContent`;
  * a read error after some chunks likewise jumps to `catch`;
  * on completion the assistant message is committed, `currentResponse`
    cleared, and `onTaskMutation` invoked once iff `needsSync` was set;
  * the `finally` block resets `isTyping` on every path that entered the try. -/
def handleSend (parse : String → Option SRecord) (now1 now2 : Nat)
    (t : TransportResult) (s : SessionState) : SendResult :=
  let textContent := jsTrim s.inputValue
  if textContent == "" || s.isTyping then ⟨s, 0, false⟩
  else
    let userMsg : ChatMessage := ⟨Nat.repr now1, .user, textContent, now1⟩
    let msgs1 := s.messages ++ [userMsg]
    match t with
    | .fetchError =>
      ⟨⟨msgs1 ++ [⟨"error", .assistant, apologyText, now2⟩], false, "", ""⟩, 0, true⟩
    | .noBody _ =>
      ⟨⟨msgs1 ++ [⟨"error", .assistant, apologyText, now2⟩], false, "", ""⟩, 0, true⟩
    | .body _ chunks readErr =>
      let acc := runChunks parse chunks
      if readErr then
        ⟨⟨msgs1 ++ [⟨"error", .assistant, apologyText, now2⟩], false,
          acc.assistantContent, ""⟩, 0, true⟩
      else
        ⟨⟨msgs1 ++ [⟨Nat.repr (now2 + 1), .assistant, acc.assistantContent, now2⟩],
          false, "", ""⟩,
         if acc.needsSync then 1 else 0, true⟩

/-- The `fetchHistory` function of the source (lines 35-42): the collaborator
either returns a history (`some h`) or throws (`none`).  On success the whole
`messages` state is replaced; on failure the error is swallowed
(`console.error` only) and the state is untouched. -/
def fetchHistory (result : Option (List ChatMessage)) (s : SessionState) : SessionState :=
  match result with
  | some h => { s with messages := h }
  | none => s

/-- Behaviour of the external `JSON.parse` on the concrete payload strings
appearing in this development (each listed string is a complete flat JSON
object whose `type`/`content` fields are read off directly; every other
string fed to it below is a truncated fragment, on which `JSON.parse`
throws — modelled as `none`). -/
def jparse (s : String) : Option SRecord :=
  if s = "\x7b\"type\":\"text\",\"content\":\"ok\"\x7d" then some ⟨"text", some "ok"⟩
  else if s = "\x7b\"type\":\"text\",\"content\":\"x\"\x7d" then some ⟨"text", some "x"⟩
  else if s = "\x7b\"type\":\"text\",\"content\":\"Hi\"\x7d" then some ⟨"text", some "Hi"⟩
  else if s = "\x7b\"type\":\"tool_call\"\x7d" then some ⟨"tool_call", none⟩
  else if s = "\x7b\"type\":\"text\"\x7d" then some ⟨"text", none⟩
  else none

/-- A concrete idle session state with pending input, used by the concrete
counterexamples and witnesses. -/
def s0 : SessionState := ⟨[], false, "", "hi"⟩

/-- A line that carries the terminal sentinel: it bears the `data: ` marker
and its trimmed payload is `[DONE]`. -/
def isDoneLine (l : String) : Bool := isDataLine l && (jsTrim (jsSlice6 l) == "[DONE]")


/-! ## Helper lemmas -/

/-- String concatenation is associative. -/
theorem strAppend_assoc (a b c : String) : a ++ b ++ c = a ++ (b ++ c) := by
  apply String.ext
  simp [String.data_append, List.append_assoc]

/-- `textPayloads` distributes over list append. -/
theorem textPayloads_append (a b : List StreamEvent) :
    textPayloads (a ++ b) = textPayloads a ++ textPayloads b := by
  induction a with
  | nil => rfl
  | cons e rest ih => cases e <;> simp [textPayloads, ih]

/-- `joinStr` distributes over list append. -/
theorem joinStr_append (a b : List String) :
    joinStr (a ++ b) = joinStr a ++ joinStr b := by
  induction a with
  | nil => simp [joinStr, String.empty_append]
  | cons s rest ih => simp [joinStr, ih, strAppend_assoc]

/-- `hasTool` distributes over list append. -/
theorem hasTool_append (a b : List StreamEvent) :
    hasTool (a ++ b) = (hasTool a || hasTool b) := by
  induction a with
  | nil => rfl
  | cons e rest ih => cases e <;> simp [hasTool, ih]

/-- `hasTool` holds exactly when the tool-invocation count is positive. -/
theorem hasTool_iff_countTool (evs : List StreamEvent) :
    hasTool evs = true ↔ 0 < countTool evs := by
  induction evs with
  | nil => simp [hasTool, countTool]
  | cons e rest ih => cases e <;> simp [hasTool, countTool, ih]

/-- The line loop, started from any accumulator, appends exactly the
concatenated text-delta payloads of the events it decodes and ors in whether
any tool invocation was decoded. -/
theorem processLines_eq (parse : String → Option SRecord) (ls : List String) :
    ∀ acc : TurnAcc,
      processLines parse ls acc =
        ⟨acc.assistantContent ++ joinStr (textPayloads (lineEvents parse ls)),
         acc.needsSync || hasTool (lineEvents parse ls)⟩ := by
  induction ls with
  | nil =>
    intro acc
    cases acc
    simp [processLines, lineEvents, textPayloads, joinStr, hasTool, String.append_empty]
  | cons l rest ih =>
    intro acc
    cases hd : isDataLine l with
    | false =>
      simp [processLines, lineEvents, hd, ih]
    | true =>
      cases hdone : (jsTrim (jsSlice6 l) == "[DONE]") with
      | true =>
        cases acc
        simp [processLines, lineEvents, hd, hdone, textPayloads, joinStr, hasTool,
          String.append_empty]
      | false =>
        cases hp : parse (jsTrim (jsSlice6 l)) with
        | none =>
          simp [processLines, lineEvents, hd, hdone, hp, ih]
        | some r =>
          cases ht : (r.rtype == "text") with
          | true =>
            simp [processLines, lineEvents, hd, hdone, hp, ht, ih, textPayloads,
              joinStr, hasTool, strAppend_assoc]
          | false =>
            cases htc : (r.rtype == "tool_call") with
            | true =>
              simp [processLines, lineEvents, hd, hdone, hp, ht, htc, ih, textPayloads,
                hasTool]
            | false =>
              simp [processLines, lineEvents, hd, hdone, hp, ht, htc, ih]

/-- The chunk-read loop, started from any accumulator, appends exactly the
concatenated text-delta payloads of the decoded events and ors in whether any
tool invocation was decoded. -/
theorem runChunksFrom_eq (parse : String → Option SRecord) (chunks : List String) :
    ∀ acc : TurnAcc,
      runChunksFrom parse acc chunks =
        ⟨acc.assistantContent ++ joinStr (textPayloads (chunksEvents parse chunks)),
         acc.needsSync || hasTool (chunksEvents parse chunks)⟩ := by
  induction chunks with
  | nil =>
    intro acc
    cases acc
    simp [runChunksFrom, chunksEvents, textPayloads, joinStr, hasTool,
      String.append_empty]
  | cons c cs ih =>
    intro acc
    have hstep : runChunksFrom parse acc (c :: cs) =
        runChunksFrom parse (processChunk parse acc c) cs := rfl
    rw [hstep, ih, processChunk, processLines_eq]
    have hce : chunksEvents parse (c :: cs) =
        lineEvents parse (jsLines c) ++ chunksEvents parse cs := by
      simp [chunksEvents]
    rw [hce, textPayloads_append, joinStr_append, hasTool_append, strAppend_assoc,
      Bool.or_assoc]

/-- The whole read loop yields exactly the concatenated text payloads and the
tool-invocation flag of the decoded event sequence. -/
theorem runChunks_eq (parse : String → Option SRecord) (chunks : List String) :
    runChunks parse chunks =
      ⟨joinStr (textPayloads (chunksEvents parse chunks)),
       hasTool (chunksEvents parse chunks)⟩ := by
  rw [runChunks, runChunksFrom_eq]
  simp [String.empty_append]

/-- The line loop's event extraction distributes over list append as long as
the first part contains no terminal-sentinel line (the sentinel would stop
processing early). -/
theorem lineEvents_append_of_noDone (parse : String → Option SRecord)
    (ls₁ ls₂ : List String) (h : ∀ l ∈ ls₁, isDoneLine l = false) :
    lineEvents parse (ls₁ ++ ls₂) = lineEvents parse ls₁ ++ lineEvents parse ls₂ := by
  induction ls₁ with
  | nil => simp [lineEvents]
  | cons l rest ih =>
    have hl : isDoneLine l = false := h l (List.mem_cons_self l rest)
    have hrest : ∀ x ∈ rest, isDoneLine x = false :=
      fun x hx => h x (List.mem_cons_of_mem l hx)
    cases hd : isDataLine l with
    | false => simp [lineEvents, hd, ih hrest]
    | true =>
      have hdone : (jsTrim (jsSlice6 l) == "[DONE]") = false := by
        unfold isDoneLine at hl
        rw [hd] at hl
        simpa using hl
      cases hp : parse (jsTrim (jsSlice6 l)) with
      | none => simp [lineEvents, hd, hdone, hp, ih hrest]
      | some r =>
        cases ht : (r.rtype == "text") with
        | true => simp [lineEvents, hd, hdone, hp, ht, ih hrest]
        | false =>
          cases htc : (r.rtype == "tool_call") with
          | true => simp [lineEvents, hd, hdone, hp, ht, htc, ih hrest]
          | false => simp [lineEvents, hd, hdone, hp, ht, htc, ih hrest]

/-! ## Claim theorems -/

/-- C1 counterexample: feeding the well-formed one-frame stream
`data: {"type":"text","content":"ok"}\n` as a single chunk yields the event
`textDelta "ok"` (and accumulated text `ok`), but splitting it at the byte
boundary after `data: {"typ` and feeding the two pieces sequentially yields no
event at all: the decoder keeps no carry-over, the truncated first piece is
silently dropped at the parse step, and the second piece lacks the `data: `
marker.  Chunking invariance therefore fails as claimed. -/
theorem c1_chunking_invariance_counterexample :
    chunksEvents jparse ["data: \x7b\"typ", "e\":\"text\",\"content\":\"ok\"\x7d\n"] ≠
        chunksEvents jparse ["data: \x7b\"typ" ++ "e\":\"text\",\"content\":\"ok\"\x7d\n"] ∧
    chunksEvents jparse ["data: \x7b\"typ", "e\":\"text\",\"content\":\"ok\"\x7d\n"] = [] ∧
    chunksEvents jparse ["data: \x7b\"typ" ++ "e\":\"text\",\"content\":\"ok\"\x7d\n"] =
        [.textDelta "ok"] ∧
    runChunks jparse ["data: \x7b\"typ", "e\":\"text\",\"content\":\"ok\"\x7d\n"] ≠
        runChunks jparse ["data: \x7b\"typ" ++ "e\":\"text\",\"content\":\"ok\"\x7d\n"] := by
  decide

/-- C1 amended: the decoder keeps no carry-over between chunks, so chunking
invariance only holds when every chunk boundary falls at a line boundary and
the split portion contains no terminal-sentinel line (the part of a
well-formed stream strictly before the sentinel); a frame split across a
chunk boundary is silently dropped.  Formally: (1) each chunk is processed
exactly as the list of lines it splits into, and (2) for any decomposition of
the stream's line sequence into consecutive groups containing no sentinel
line, decoding the groups one by one yields the same ordered sequence of
StreamEvents as decoding all lines at once. -/
theorem c1_chunking_invariance_amended :
    (∀ (parse : String → Option SRecord) (acc : TurnAcc) (c : String),
        processChunk parse acc c = processLines parse (jsLines c) acc) ∧
    (∀ (parse : String → Option SRecord) (lss : List (List String)),
        (∀ l ∈ lss.flatten, isDoneLine l = false) →
        (lss.map (lineEvents parse)).flatten = lineEvents parse lss.flatten) := by
  constructor
  · intro parse acc c
    rfl
  · intro parse lss
    induction lss with
    | nil =>
      intro _
      simp [lineEvents]
    | cons ls rest ih =>
      intro h
      have h1 : ∀ l ∈ ls, isDoneLine l = false := by
        intro x hx
        exact h x (by simp [hx])
      have h2 : ∀ l ∈ rest.flatten, isDoneLine l = false := by
        intro x hx
        exact h x (by simp [hx])
      rw [List.map_cons, List.flatten_cons, List.flatten_cons,
        lineEvents_append_of_noDone parse ls rest.flatten h1, ih h2]

/-- C1 amended, concrete witness: two single-line groups, neither carrying the
sentinel, decode groupwise to the same events as the joined line list. -/
theorem c1_chunking_invariance_amended_witness :
    ([["data: \x7b\"type\":\"tool_call\"\x7d"],
      ["data: \x7b\"type\":\"text\",\"content\":\"ok\"\x7d"]].map (lineEvents jparse)).flatten =
      lineEvents jparse
        [["data: \x7b\"type\":\"tool_call\"\x7d"],
         ["data: \x7b\"type\":\"text\",\"content\":\"ok\"\x7d"]].flatten :=
  c1_chunking_invariance_amended.2 jparse
    [["data: \x7b\"type\":\"tool_call\"\x7d"],
     ["data: \x7b\"type\":\"text\",\"content\":\"ok\"\x7d"]] (by decide)

/-- C4 counterexample: after the terminal sentinel `[DONE]` is decoded in the
first chunk, a `text` frame delivered in a later chunk IS still processed —
the `break` in the source only exits the inner per-chunk line loop — so the
accumulated text changes from the empty string to `x` after terminal. -/
theorem c4_post_terminal_counterexample :
    (runChunks jparse ["data: [DONE]\n"]).assistantContent = "" ∧
    (runChunks jparse
        ["data: [DONE]\n", "data: \x7b\"type\":\"text\",\"content\":\"x\"\x7d\n"]).assistantContent
      = "x" := by
  decide

/-- C4 amended: once the terminal sentinel is decoded, the remaining lines of
the SAME chunk are never processed (the line loop returns the accumulator
unchanged), but frames in subsequently delivered chunks are processed
normally — the outer read loop simply continues folding later chunks over the
current state, so the accumulated text and the tool flag can change again. -/
theorem c4_post_terminal_amended :
    (∀ (parse : String → Option SRecord) (l : String) (post : List String) (acc : TurnAcc),
        isDataLine l = true → jsTrim (jsSlice6 l) = "[DONE]" →
        processLines parse (l :: post) acc = acc) ∧
    (∀ (parse : String → Option SRecord) (acc : TurnAcc) (cs₁ cs₂ : List String),
        runChunksFrom parse acc (cs₁ ++ cs₂) =
          runChunksFrom parse (runChunksFrom parse acc cs₁) cs₂) := by
  constructor
  · intro parse l post acc hd hdone
    simp [processLines, hd, hdone]
  · intro parse acc cs₁ cs₂
    simp [runChunksFrom, List.foldl_append]

/-- C4 amended, concrete witness: a sentinel line at the head of a chunk makes
the rest of that chunk's lines inert. -/
theorem c4_post_terminal_amended_witness :
    processLines jparse
        ["data: [DONE]", "data: \x7b\"type\":\"text\",\"content\":\"x\"\x7d"]
        ⟨"", false⟩ = ⟨"", false⟩ :=
  c4_post_terminal_amended.1 jparse ("data: [DONE]")
    ["data: \x7b\"type\":\"text\",\"content\":\"x\"\x7d"] ⟨"", false⟩
    (by decide) (by decide)

/-- C2 counterexample: a turn observes a `tool_call` event (the `needsSync`
flag is set) and then fails with a read error before the terminal sentinel;
the sync notification does NOT fire — `onTaskMutation` is invoked zero times,
because the `if (needsSync) onTaskMutation()` call sits inside the `try`
block after the read loop and is skipped when control jumps to `catch`. -/
theorem c2_sync_on_failure_counterexample :
    (runChunks jparse ["data: \x7b\"type\":\"tool_call\"\x7d\n"]).needsSync = true ∧
    (handleSend jparse 0 0
        (.body 200 ["data: \x7b\"type\":\"tool_call\"\x7d\n"] true) s0).syncCount = 0 := by
  decide

/-- C2 amended: the `sawToolInvocation` flag, once set, does survive to the
failure point (it is never reset), but the sync notification does not fire on
the failure path: a turn that fails after tool-invocation events were
observed invokes the outward sync notification zero times, because the
notifier is only consulted after successful stream completion. -/
theorem c2_sync_on_failure_amended (parse : String → Option SRecord)
    (now1 now2 status : Nat) (chunks : List String) (s : SessionState)
    (h1 : jsTrim s.inputValue ≠ "") (h2 : s.isTyping = false)
    (hflag : (runChunks parse chunks).needsSync = true) :
    (handleSend parse now1 now2 (.body status chunks true) s).syncCount = 0 := by
  have h1b : (jsTrim s.inputValue == "") = false := by simpa using h1
  simp [handleSend, h1b, h2]

/-- C2 amended, concrete witness: instantiated at a turn that decodes one
tool-invocation event and then fails. -/
theorem c2_sync_on_failure_amended_witness :
    (handleSend jparse 3 4
        (.body 200 ["data: \x7b\"type\":\"tool_call\"\x7dd\n" ++ "data: \x7b\"type\":\"tool_call\"\x7d\n"] true)
        s0).syncCount = 0 :=
  c2_sync_on_failure_amended jparse 3 4 200
    ["data: \x7b\"type\":\"tool_call\"\x7dd\n" ++ "data: \x7b\"type\":\"tool_call\"\x7d\n"] s0
    (by decide) (by decide) (by decide)

/-- C3 counterexample: (a) a response with non-success HTTP status 500 whose
body completes normally is NOT treated as a transport failure — no apology
message is appended (the source never checks `response.ok`; it commits an
ordinary assistant message); (b) on a genuine failure (read error after a
partial `Hi` delta) the transient partial render text `currentResponse` is
NOT cleared — it still holds `Hi` after the turn ends. -/
theorem c3_failure_handling_counterexample :
    ((handleSend jparse 0 0 (.body 500 [] false) s0).state.messages.filter
        (fun m => m.content == apologyText)) = [] ∧
    (handleSend jparse 0 0
        (.body 200 ["data: \x7b\"type\":\"text\",\"content\":\"Hi\"\x7d\n"] true)
        s0).state.currentResponse = "Hi" := by
  decide

/-- C3 amended: on the transport failures the code detects — a rejected
fetch, a missing response body, or a read error escaping the decode loop —
exactly one synthetic assistant message with the fixed apology content and
the fixed id `error` is appended after the user message, and the session
returns to Idle (`isTyping = false`); however a non-success HTTP status is
not detected as a failure (the status is never inspected), and the transient
partial render text is not cleared on the failure path: after a read error it
still holds the text accumulated before the failure. -/
theorem c3_failure_handling_amended (parse : String → Option SRecord)
    (now1 now2 status : Nat) (chunks : List String) (s : SessionState)
    (h1 : jsTrim s.inputValue ≠ "") (h2 : s.isTyping = false) :
    (handleSend parse now1 now2 .fetchError s).state =
      ⟨s.messages ++ [⟨Nat.repr now1, .user, jsTrim s.inputValue, now1⟩,
        ⟨"error", .assistant, apologyText, now2⟩], false, "", ""⟩ ∧
    (handleSend parse now1 now2 (.noBody status) s).state =
      ⟨s.messages ++ [⟨Nat.repr now1, .user, jsTrim s.inputValue, now1⟩,
        ⟨"error", .assistant, apologyText, now2⟩], false, "", ""⟩ ∧
    (handleSend parse now1 now2 (.body status chunks true) s).state =
      ⟨s.messages ++ [⟨Nat.repr now1, .user, jsTrim s.inputValue, now1⟩,
        ⟨"error", .assistant, apologyText, now2⟩], false,
        (runChunks parse chunks).assistantContent, ""⟩ := by
  have h1b : (jsTrim s.inputValue == "") = false := by simpa using h1
  refine ⟨?_, ?_, ?_⟩ <;> simp [handleSend, h1b, h2]

/-- C3 amended, concrete witness: a rejected fetch appends exactly the user
message and the fixed-id apology message and returns to Idle. -/
theorem c3_failure_handling_amended_witness :
    (handleSend jparse 0 1 .fetchError s0).state =
      ⟨s0.messages ++ [⟨Nat.repr 0, .user, jsTrim s0.inputValue, 0⟩,
        ⟨"error", .assistant, apologyText, 1⟩], false, "", ""⟩ :=
  (c3_failure_handling_amended jparse 0 1 200 [] s0 (by decide) (by decide)).1

/-- C7: calling `handleSend` with input that is empty after trimming, or
while a turn is already in flight (`isTyping`), is a complete no-op: the
whole session state is returned unchanged, the sync notification fires zero
times, and no network request is opened. -/
theorem c7_submit_guard (parse : String → Option SRecord) (now1 now2 : Nat)
    (t : TransportResult) (s : SessionState)
    (h : jsTrim s.inputValue = "" ∨ s.isTyping = true) :
    handleSend parse now1 now2 t s = ⟨s, 0, false⟩ := by
  rcases h with h | h
  · simp [handleSend, h]
  · simp [handleSend, h]

/-- C7 witness: a submit attempted while a turn is in flight leaves the state
untouched and opens no request. -/
theorem c7_submit_guard_witness :
    handleSend jparse 5 6 .fetchError ⟨[], true, "", "hi"⟩ =
      ⟨⟨[], true, "", "hi"⟩, 0, false⟩ :=
  c7_submit_guard jparse 5 6 .fetchError ⟨[], true, "", "hi"⟩ (Or.inr (by decide))

/-- C9: the history fetch replaces the entire history wholesale on success,
and on failure leaves the state exactly as it was (the error is swallowed; in
particular no error message is appended and nothing else changes). -/
theorem c9_fetch_history (h : List ChatMessage) (s : SessionState) :
    fetchHistory (some h) s = { s with messages := h } ∧ fetchHistory none s = s :=
  ⟨rfl, rfl⟩

/-- C10: the decoder does not validate the `content` field of `text` records:
for the stream carrying the parseable record with `type` `text` and no
`content` field, the event is not ignored — the `undefined` payload is
coerced by the JS `+=` into the string `undefined`, so the committed
assistant message content is the literal text `undefined`. -/
theorem c10_undefined_coercion :
    jparse (jsTrim (jsSlice6 ("data: \x7b\"type\":\"text\"\x7d"))) = some ⟨"text", none⟩ ∧
    (handleSend jparse 0 0
        (.body 200 ["data: \x7b\"type\":\"text\"\x7d\n"] false) s0).state.messages =
      [⟨"0", .user, "hi", 0⟩, ⟨"1", .assistant, "undefined", 0⟩] := by
  decide

/-- C5 counterexample: a turn whose stream carries k = 2 tool-invocation
events but which fails with a read error before the sentinel invokes the
sync notification 0 times, not min(2,1) = 1: the claim's count is wrong for
turns that fail. -/
theorem c5_sync_count_counterexample :
    countTool (chunksEvents jparse
        ["data: \x7b\"type\":\"tool_call\"\x7d\ndata: \x7b\"type\":\"tool_call\"\x7d\n"]) = 2 ∧
    min 2 1 = 1 ∧
    (handleSend jparse 0 0
        (.body 200 ["data: \x7b\"type\":\"tool_call\"\x7d\ndata: \x7b\"type\":\"tool_call\"\x7d\n"]
          true) s0).syncCount = 0 := by
  decide

/-- C5 amended: for every turn that completes successfully and whose decode
loop processed k tool-invocation events, the outward sync notification is
invoked exactly min(k,1) times — once if any tool invocation was observed,
never more than once however many arrived, zero times if none arrived; a
turn that fails invokes it zero times regardless of k. -/
theorem c5_sync_count_amended (parse : String → Option SRecord)
    (now1 now2 status : Nat) (chunks : List String) (s : SessionState)
    (h1 : jsTrim s.inputValue ≠ "") (h2 : s.isTyping = false) :
    (handleSend parse now1 now2 (.body status chunks false) s).syncCount =
      min (countTool (chunksEvents parse chunks)) 1 ∧
    (handleSend parse now1 now2 (.body status chunks true) s).syncCount = 0 := by
  have h1b : (jsTrim s.inputValue == "") = false := by simpa using h1
  constructor
  · have hsync : (handleSend parse now1 now2 (.body status chunks false) s).syncCount =
        if (runChunks parse chunks).needsSync then 1 else 0 := by
      simp [handleSend, h1b, h2]
    rw [hsync, runChunks_eq]
    cases h : hasTool (chunksEvents parse chunks) with
    | false =>
      have hk : countTool (chunksEvents parse chunks) = 0 := by
        by_contra hne
        have hpos : 0 < countTool (chunksEvents parse chunks) := Nat.pos_of_ne_zero hne
        rw [← hasTool_iff_countTool] at hpos
        rw [h] at hpos
        exact Bool.false_ne_true hpos
      simp [h, hk]
    | true =>
      have hk := (hasTool_iff_countTool (chunksEvents parse chunks)).mp h
      simp [h]
      omega
  · simp [handleSend, h1b, h2]

/-- C5 amended, concrete witness: a successful turn with one tool invocation
fires the sync exactly min(1,1) = 1 time. -/
theorem c5_sync_count_amended_witness :
    (handleSend jparse 0 0
        (.body 200 ["data: \x7b\"type\":\"tool_call\"\x7d\n"] false) s0).syncCount =
      min (countTool (chunksEvents jparse ["data: \x7b\"type\":\"tool_call\"\x7d\n"])) 1 :=
  (c5_sync_count_amended jparse 0 0 200 ["data: \x7b\"type\":\"tool_call\"\x7d\n"] s0
    (by decide) (by decide)).1

/-- C6: for every turn that completes successfully, the committed history is
the old history followed by the user message and one assistant message whose
content is exactly the concatenation, in arrival order, of the payloads
d1..dn of the text-delta events the decode loop processed (the empty string
when n = 0). -/
theorem c6_accumulation (parse : String → Option SRecord)
    (now1 now2 status : Nat) (chunks : List String) (s : SessionState)
    (h1 : jsTrim s.inputValue ≠ "") (h2 : s.isTyping = false) :
    (handleSend parse now1 now2 (.body status chunks false) s).state.messages =
      s.messages ++
        [⟨Nat.repr now1, .user, jsTrim s.inputValue, now1⟩,
         ⟨Nat.repr (now2 + 1), .assistant,
           joinStr (textPayloads (chunksEvents parse chunks)), now2⟩] := by
  have h1b : (jsTrim s.inputValue == "") = false := by simpa using h1
  simp [handleSend, h1b, h2, runChunks_eq]

/-- C6 witness: a successful turn delivering the deltas `ok` then `x` and a
tool call, followed by the sentinel, commits the assistant content `okx`
(the concatenation of the two payloads in arrival order). -/
theorem c6_accumulation_witness :
    (handleSend jparse 1 2
        (.body 200
          ["data: \x7b\"type\":\"text\",\"content\":\"ok\"\x7d\ndata: \x7b\"type\":\"text\",\"content\":\"x\"\x7d\ndata: \x7b\"type\":\"tool_call\"\x7d\ndata: [DONE]\n"]
          false) s0).state.messages =
      s0.messages ++
        [⟨Nat.repr 1, .user, jsTrim s0.inputValue, 1⟩,
         ⟨Nat.repr (2 + 1), .assistant,
           joinStr (textPayloads (chunksEvents jparse
             ["data: \x7b\"type\":\"text\",\"content\":\"ok\"\x7d\ndata: \x7b\"type\":\"text\",\"content\":\"x\"\x7d\ndata: \x7b\"type\":\"tool_call\"\x7d\ndata: [DONE]\n"])),
           2⟩] :=
  c6_accumulation jparse 1 2 200
    ["data: \x7b\"type\":\"text\",\"content\":\"ok\"\x7d\ndata: \x7b\"type\":\"text\",\"content\":\"x\"\x7d\ndata: \x7b\"type\":\"tool_call\"\x7d\ndata: [DONE]\n"]
    s0 (by decide) (by decide)

/-- C8 counterexample: two consecutive failed turns both append a synthetic
assistant message with the same fixed id `error`: the resulting history's id
list `["0", "error", "1", "error"]` has a duplicate, so ids are not unique
across the turns of a session. -/
theorem c8_unique_ids_counterexample :
    ((handleSend jparse 1 1 .fetchError
        { (handleSend jparse 0 0 .fetchError s0).state with inputValue := "yo" }).state.messages.map
      (fun m => m.id)) = ["0", "error", "1", "error"] ∧
    ¬ List.Nodup ["0", "error", "1", "error"] := by
  decide

/-- C8 amended: message ids are not globally unique: every failed turn —
whatever its failure mode and whenever it happens — appends a synthetic
assistant message carrying the one fixed id `error`, so any session with two
failed turns holds duplicate ids; the user message of each turn gets the
clock-derived id `Date.now().toString()`. -/
theorem c8_unique_ids_amended (parse : String → Option SRecord)
    (now1 now2 status : Nat) (chunks : List String) (s : SessionState)
    (h1 : jsTrim s.inputValue ≠ "") (h2 : s.isTyping = false) :
    ((handleSend parse now1 now2 .fetchError s).state.messages.map (fun m => m.id)) =
      (s.messages.map (fun m => m.id)) ++ [Nat.repr now1, "error"] ∧
    ((handleSend parse now1 now2 (.noBody status) s).state.messages.map (fun m => m.id)) =
      (s.messages.map (fun m => m.id)) ++ [Nat.repr now1, "error"] ∧
    ((handleSend parse now1 now2 (.body status chunks true) s).state.messages.map (fun m => m.id)) =
      (s.messages.map (fun m => m.id)) ++ [Nat.repr now1, "error"] := by
  have h1b : (jsTrim s.inputValue == "") = false := by simpa using h1
  refine ⟨?_, ?_, ?_⟩ <;> simp [handleSend, h1b, h2]

/-- C8 amended, concrete witness: a turn failing for lack of a response body
appends ids `Date.now().toString()` and the fixed `error`. -/
theorem c8_unique_ids_amended_witness :
    ((handleSend jparse 7 8 (.noBody 200) s0).state.messages.map (fun m => m.id)) =
      (s0.messages.map (fun m => m.id)) ++ [Nat.repr 7, "error"] :=
  (c8_unique_ids_amended jparse 7 8 200 [] s0 (by decide) (by decide)).2.1
